import Mathlib

/-
Verification of the QuickChat streaming chat adapter
(src/services/ollama_client.py and the consumer loop in src/ui/main_window.py).

Python strings are modelled as List Char; Python str.find as findTag
(none models the -1 result); Python str.strip as pyStripPred.  The
streaming generator OllamaClient.chat_stream is modelled as a pure
function from the list of content fragments delivered by the backend
(plus an optional transport-failure message) to the list of emitted
stream events; generator exhaustion is modelled by the terminal done
event.
-/

namespace QuickChat

/-- Character-list representation of a Lean string literal, used to model
Python strings throughout this development. -/
def chars (s : String) : List Char := s.toList

/-- Test whether pat occurs at the head of s (the anchored step of
Python substring search). -/
def leadsWith : List Char → List Char → Bool
  | [], _ => true
  | _ :: _, [] => false
  | p :: ps, c :: cs => p == c && leadsWith ps cs

/-- First index at which the nonempty pattern pat occurs in s, modelling
Python str.find; none models the -1 result. -/
def findTag (pat : List Char) : List Char → Option Nat
  | [] => none
  | c :: rest =>
      if leadsWith pat (c :: rest) then some 0
      else (findTag pat rest).map (fun i => i + 1)

/-- Substring test, modelling the Python in operator on strings. -/
def strContains (s pat : List Char) : Bool := (findTag pat s).isSome

/-- Whitespace characters stripped by Python str.strip with no argument
(ASCII range; 11 and 12 are vertical tab and form feed). -/
def isSpaceChar (c : Char) : Bool :=
  c == ' ' || c == '\t' || c == '\n' || c == '\r' || c.toNat == 11 || c.toNat == 12

/-- Remove the characters satisfying p from both ends of s, modelling
Python str.strip with a character set. -/
def pyStripPred (p : Char → Bool) (s : List Char) : List Char :=
  ((s.dropWhile p).reverse.dropWhile p).reverse

/-- Python str.strip with no argument. -/
def pyStrip (s : List Char) : List Char := pyStripPred isSpaceChar s

/-- Python str.strip with the two quote characters (character codes 34
and 39 are the double quote and the apostrophe), as used on titles. -/
def pyStripQuotes (s : List Char) : List Char :=
  pyStripPred (fun c => c.toNat == 34 || c.toNat == 39) s

/-- Lowercase a modelled Python string, as Python str.lower over ASCII. -/
def lowerStr (s : List Char) : List Char := s.map Char.toLower

/-- Classified stream events surfaced to the caller of chat_stream.  The
generator yields dicts with a thinking field or a content field; done
models generator exhaustion. -/
inductive StreamEvent
  | thinkingDelta (text : List Char)
  | contentDelta (text : List Char)
  | done
deriving DecidableEq

/-- State of the inline tag scanner inside OllamaClient.chat_stream:
the variables buffered_content and in_thinking_section. -/
structure ParserState where
  buffered_content : List Char
  in_thinking_section : Bool
deriving DecidableEq

/-- The literal opening tag searched for by chat_stream. -/
def openTag : List Char := chars "<think>"

/-- The literal closing tag searched for by chat_stream. -/
def closeTag : List Char := chars "</think>"

/-- Body of the in_thinking_section branch of chat_stream (lines 281-317
of ollama_client.py): look for the closing tag; on a hit emit the
thinking text before it, strip the remainder after the tag and emit it
as content; otherwise emit the whole buffer as thinking.  The unused
accumulator think_buffer of the source is omitted, as nothing reads it. -/
def afterOpen (pre : List StreamEvent) (buf : List Char) :
    List StreamEvent × ParserState :=
  match findTag closeTag buf with
  | some q =>
      let remaining := buf.take q
      let rest := pyStrip (buf.drop (q + 8))
      (pre ++ (if remaining = [] then [] else [StreamEvent.thinkingDelta remaining])
          ++ (if rest = [] then [] else [StreamEvent.contentDelta rest]),
       ⟨[], false⟩)
  | none =>
      (pre ++ (if buf = [] then [] else [StreamEvent.thinkingDelta buf]), ⟨[], true⟩)

/-- Processing of one received content fragment by chat_stream (lines
261-325 of ollama_client.py) for a directive-mechanism model: append the
fragment to the buffer; if not inside a thinking section and an opening
tag occurs, emit the content before it, drop the tag and enter the
thinking section; then handle the thinking section via afterOpen, or
emit the whole buffer as content when outside one.  An empty fragment is
skipped entirely, as the source guards on the truthiness of the chunk. -/
def stepChunk (st : ParserState) (chunk : List Char) :
    List StreamEvent × ParserState :=
  if chunk = [] then ([], st)
  else
    let buf0 := st.buffered_content ++ chunk
    match (if st.in_thinking_section then none else findTag openTag buf0) with
    | some p =>
        let pre := if 0 < p then [StreamEvent.contentDelta (buf0.take p)] else []
        afterOpen pre (buf0.drop (p + 7))
    | none =>
        if st.in_thinking_section then afterOpen [] buf0
        else if buf0 = [] then ([], ⟨[], false⟩)
        else ([StreamEvent.contentDelta buf0], ⟨[], false⟩)

/-- Fold stepChunk over a list of received fragments, collecting the
emitted events in order together with the final parser state. -/
def runChunks (st : ParserState) : List (List Char) → List StreamEvent × ParserState
  | [] => ([], st)
  | c :: cs =>
      let r := stepChunk st c
      let r2 := runChunks r.2 cs
      (r.1 ++ r2.1, r2.2)

/-- The inline error marker produced by the except branch of chat_stream
(line 342 of ollama_client.py). -/
def errMarker (msg : List Char) : List Char :=
  chars "\n[Error: " ++ msg ++ chars "]"

/-- Observable behaviour of OllamaClient.chat_stream for a
directive-mechanism model: frags is the sequence of content fragments
delivered by the backend, and err carries the transport-failure message
when the stream raises after those fragments.  On normal completion the
remaining buffer, when nonempty, is flushed as a content delta (line
335); on failure the flush is skipped and a single error-marker content
delta is yielded from the except branch.  Generator exhaustion is the
terminal done event. -/
def chat_stream (frags : List (List Char)) (err : Option (List Char)) :
    List StreamEvent :=
  let r := runChunks ⟨[], false⟩ frags
  match err with
  | none =>
      r.1 ++ (if r.2.buffered_content = [] then []
              else [StreamEvent.contentDelta r.2.buffered_content])
          ++ [StreamEvent.done]
  | some msg =>
      r.1 ++ [StreamEvent.contentDelta (errMarker msg), StreamEvent.done]

/-- Concatenation of the text of all emitted deltas of an event list. -/
def concatDeltas : List StreamEvent → List Char
  | [] => []
  | StreamEvent.thinkingDelta t :: rest => t ++ concatDeltas rest
  | StreamEvent.contentDelta t :: rest => t ++ concatDeltas rest
  | StreamEvent.done :: rest => concatDeltas rest

/-- Whether an event carries a literal think tag marker in its text. -/
def eventTextContainsTag : StreamEvent → Bool
  | StreamEvent.thinkingDelta t => strContains t openTag || strContains t closeTag
  | StreamEvent.contentDelta t => strContains t openTag || strContains t closeTag
  | StreamEvent.done => false

/-- Detected capabilities of one model, as cached by OllamaClient:
the dict with keys thinking, vision and thinking_method (the latter
holding None, the string parameter, or the string directive). -/
structure ModelCapabilities where
  thinking : Bool
  vision : Bool
  thinking_method : Option String
deriving DecidableEq

/-- Response of the backend show endpoint as read by
get_model_capabilities: capabilities is the optional list of capability
tags (none models a response object without that attribute; a non-list
value is read as the empty list by the source), and modelinfo is the
list of keys of the modelinfo mapping (empty models an absent or empty
mapping, which the source treats alike via truthiness). -/
structure ShowResponse where
  capabilities : Option (List (List Char))
  modelinfo : List (List Char)

/-- Static keyword set of reasoning-capable model families
(OllamaClient.THINKING_MODEL_KEYWORDS). -/
def THINKING_MODEL_KEYWORDS : List (List Char) :=
  [chars "qwen3", chars "qwen2.5", chars "deepseek-r1", chars "deepseek-v3", chars "qwq"]

/-- Static keyword set of vision-capable model families
(OllamaClient.VISION_MODEL_KEYWORDS). -/
def VISION_MODEL_KEYWORDS : List (List Char) :=
  [chars "llava", chars "bakllava", chars "llava-phi", chars "moondream",
   chars "cogvlm", chars "llama3.2-vision", chars "gemma3"]

/-- Capability detection from a successful show response (lines 60-97 of
ollama_client.py): capability tags matching reasoning or think set
parameter-based thinking; tags or modelinfo keys matching vision set
vision; a thinking keyword in the model name sets directive-based
thinking when the tags did not already report it. -/
def detect_from_show (model_name : List Char) (details : ShowResponse) :
    ModelCapabilities :=
  let tagResult :=
    match details.capabilities with
    | some caps =>
        let t := caps.any (fun cap =>
          strContains (lowerStr cap) (chars "reasoning") ||
          strContains (lowerStr cap) (chars "think"))
        let v := caps.any (fun cap => strContains (lowerStr cap) (chars "vision"))
        (t, v, if t then some "parameter" else (none : Option String))
    | none => (false, false, none)
  let thinking1 := tagResult.1
  let vision2 := tagResult.2.1 ||
    details.modelinfo.any (fun key => strContains (lowerStr key) (chars "vision"))
  if thinking1 then ⟨thinking1, vision2, tagResult.2.2⟩
  else
    let ml := lowerStr model_name
    if THINKING_MODEL_KEYWORDS.any (fun k => strContains ml k)
    then ⟨true, vision2, some "directive"⟩
    else ⟨false, vision2, tagResult.2.2⟩

/-- Keyword-only capability detection used when the show request raises
(lines 104-121 of ollama_client.py). -/
def detect_fallback (model_name : List Char) : ModelCapabilities :=
  let ml := lowerStr model_name
  let t := THINKING_MODEL_KEYWORDS.any (fun k => strContains ml k)
  let v := VISION_MODEL_KEYWORDS.any (fun k => strContains ml k)
  ⟨t, v, if t then some "directive" else none⟩

/-- The session capability cache OllamaClient._capabilities_cache,
modelled as an association list keyed by model name. -/
abbrev CapCache := List (List Char × ModelCapabilities)

/-- Dictionary lookup in the capability cache. -/
def cacheLookup (c : CapCache) (name : List Char) : Option ModelCapabilities :=
  match c with
  | [] => none
  | (k, v) :: rest => if k = name then some v else cacheLookup rest name

/-- OllamaClient.get_model_capabilities: backend models the show
endpoint, where none is a raised network error.  Returns the resolved
capabilities, the updated cache, and whether a backend metadata request
was issued (false on the cached instant path). -/
def get_model_capabilities (backend : List Char → Option ShowResponse)
    (cache : CapCache) (model_name : List Char) :
    ModelCapabilities × CapCache × Bool :=
  match cacheLookup cache model_name with
  | some r => (r, cache, false)
  | none =>
      let r := match backend model_name with
        | some details => detect_from_show model_name details
        | none => detect_fallback model_name
      (r, (model_name, r) :: cache, true)

/-- One conversation message dict as used by chat_stream: role and
content, plus the images list added to the last user message (the empty
list models both an absent key and an empty value, which the source
treats alike via truthiness). -/
structure Message where
  role : String
  content : List Char
  images : List String := []
deriving DecidableEq

/-- Directive injection of chat_stream (lines 221-230 of
ollama_client.py): prepend the chosen directive and a newline to the
content of every message whose role is user. -/
def applyDirective (enable_thinking : Bool) (messages : List Message) :
    List Message :=
  let directive := if enable_thinking then chars "/think" else chars "/no_think"
  messages.map fun msg =>
    if msg.role = "user"
    then { msg with content := directive ++ chars "\n" ++ msg.content }
    else msg

/-- Image attachment of chat_stream (lines 201-214 of ollama_client.py):
the source records the index of the last message with role user and, if
that message has no images yet, stores the images on it.  Modelled
structurally: the last user message of the list is updated when its
images list is empty. -/
def attachToLastUser (images : List String) : List Message → List Message
  | [] => []
  | m :: rest =>
      if rest.any (fun x => x.role == "user") then m :: attachToLastUser images rest
      else if m.role = "user" ∧ m.images = [] then { m with images := images } :: rest
      else m :: rest

/-- Guarded image attachment: the source only runs the search when the
images argument is truthy. -/
def attachImages (images : List String) (messages : List Message) : List Message :=
  if images = [] then messages else attachToLastUser images messages

/-- Message preparation phase of chat_stream (lines 201-230 of
ollama_client.py): attach images to the last user message, then apply
directive injection when the resolved thinking method is directive and
the message list is nonempty.  The source mutates the caller message
dicts in place; the returned list models the state of the caller list
after the call. -/
def chat_stream_prepare (thinking_method : Option String) (enable_thinking : Bool)
    (images : List String) (messages : List Message) : List Message :=
  let messages := attachImages images messages
  if thinking_method = some "directive" ∧ messages ≠ []
  then applyDirective enable_thinking messages
  else messages

/-- Fuel-bounded removal of complete think spans, modelling the regex
substitution of "<think>" followed by a shortest span and "</think>"
with the empty string (re.sub with DOTALL, non-greedy): repeatedly drop
the text from the leftmost opening tag through the first closing tag
after it.  Each step consumes at least the fifteen tag characters, so
fuel equal to the string length suffices. -/
def removeThinkSpansAux : Nat → List Char → List Char
  | 0, s => s
  | fuel + 1, s =>
      match findTag openTag s with
      | none => s
      | some p =>
          match findTag closeTag (s.drop (p + 7)) with
          | none => s
          | some q => s.take p ++ removeThinkSpansAux fuel (s.drop (p + 7 + q + 8))

/-- Removal of all complete think spans from a string, as the regex
substitution used by generate_chat_title. -/
def removeThinkSpans (s : List Char) : List Char :=
  removeThinkSpansAux s.length s

/-- OllamaClient.generate_chat_title, reduced to its observable output:
outcome is none when any step raises (modelling a network failure) and
some full when the stream completed with accumulated content full.  The
returned list holds the yielded title chunks: the cleaned, truncated
title when nonempty, nothing when the cleaned title is empty, and the
fallback built from the user message when an exception was raised
(lines 405-419 of ollama_client.py). -/
def generate_chat_title (user_message : List Char) (outcome : Option (List Char)) :
    List (List Char) :=
  match outcome with
  | none =>
      [if 30 < user_message.length
       then user_message.take 30 ++ chars "..."
       else user_message]
  | some full =>
      let t1 := pyStrip (removeThinkSpans full)
      let t2 := pyStrip (pyStripQuotes t1)
      let t3 := if 50 < t2.length then t2.take 47 ++ chars "..." else t2
      if t3 = [] then [] else [t3]

/-- Consumer loop of MainWindow (lines 312-316 of main_window.py): pull
events from the stream; the cooperative stop flag is checked once per
pulled event before the event is processed, so when it is set after n
delivered events the loop breaks and discards the pulled event. -/
def consumeLoop : List StreamEvent → Nat → List StreamEvent
  | [], _ => []
  | _ :: _, 0 => []
  | e :: rest, n + 1 => e :: consumeLoop rest n

/-- Projection of a message to its role and content, used to state which
parts of the caller list the preparation phase leaves alone. -/
def roleContent (m : Message) : String × List Char := (m.role, m.content)

/-- The full text prepended to a user message by one directive
injection: the directive followed by a newline. -/
def directiveToken (enable : Bool) : List Char :=
  (if enable then chars "/think" else chars "/no_think") ++ chars "\n"

/-- The directive injection expressed on role-content pairs. -/
def directiveRC (enable : Bool) (p : String × List Char) : String × List Char :=
  (p.1, if p.1 = "user" then directiveToken enable ++ p.2 else p.2)

theorem afterOpen_buffered (pre : List StreamEvent) (buf : List Char) :
    (afterOpen pre buf).2.buffered_content = [] := by
  unfold afterOpen
  split <;> rfl

theorem stepChunk_buffered (st : ParserState) (chunk : List Char)
    (h : st.buffered_content = []) :
    (stepChunk st chunk).2.buffered_content = [] := by
  unfold stepChunk
  split
  · exact h
  · dsimp only
    repeat' split
    all_goals first | exact afterOpen_buffered _ _ | rfl

theorem runChunks_buffered (frags : List (List Char)) :
    ∀ st : ParserState, st.buffered_content = [] →
      (runChunks st frags).2.buffered_content = [] := by
  induction frags with
  | nil => intro st h; exact h
  | cons c cs ih => intro st h; exact ih _ (stepChunk_buffered st c h)

theorem consumeLoop_eq_take (l : List StreamEvent) :
    ∀ n : Nat, consumeLoop l n = l.take n := by
  induction l with
  | nil => intro n; cases n <;> rfl
  | cons e rest ih =>
      intro n
      cases n with
      | zero => rfl
      | succ m => simp [consumeLoop, List.take_succ_cons, ih m]

theorem attachToLastUser_map_roleContent (images : List String)
    (msgs : List Message) :
    (attachToLastUser images msgs).map roleContent = msgs.map roleContent := by
  induction msgs with
  | nil => rfl
  | cons m rest ih =>
      unfold attachToLastUser
      split
      · simpa using ih
      · split
        · simp [roleContent]
        · rfl

theorem attachImages_map_roleContent (images : List String)
    (msgs : List Message) :
    (attachImages images msgs).map roleContent = msgs.map roleContent := by
  unfold attachImages
  split
  · rfl
  · exact attachToLastUser_map_roleContent _ _

theorem applyDirective_map_roleContent (enable : Bool) (msgs : List Message) :
    (applyDirective enable msgs).map roleContent =
      (msgs.map roleContent).map (directiveRC enable) := by
  simp only [applyDirective, List.map_map]
  refine List.map_congr_left ?_
  intro m _
  by_cases h : m.role = "user" <;>
    simp [roleContent, directiveRC, directiveToken, h, Function.comp,
      List.append_assoc]

theorem prepare_map_roleContent (enable : Bool) (imgs : List String)
    (msgs : List Message) :
    (chat_stream_prepare (some "directive") enable imgs msgs).map roleContent =
      (msgs.map roleContent).map (directiveRC enable) := by
  have hA := attachImages_map_roleContent imgs msgs
  unfold chat_stream_prepare
  by_cases hm : attachImages imgs msgs = []
  · have h0 : msgs.map roleContent = [] := by rw [← hA, hm]; rfl
    rw [if_neg (fun hc => hc.2 hm), hA, h0]
    rfl
  · rw [if_pos ⟨rfl, hm⟩, applyDirective_map_roleContent, hA]

/-- C1 counterexample: on the fragment sequence of the claim the parser
does not produce the claimed sequence, because the text after the
closing tag is stripped of its leading space before being emitted. -/
theorem c1_counterexample :
    chat_stream [chars "Hello ", chars "<think>reasoning ", chars "more</think> world"]
        none ≠
      [StreamEvent.contentDelta (chars "Hello "),
       StreamEvent.thinkingDelta (chars "reasoning "),
       StreamEvent.thinkingDelta (chars "more"),
       StreamEvent.contentDelta (chars " world"),
       StreamEvent.done] := by decide

/-- C1 (amended): the fragment sequence of the claim yields
ContentDelta of Hello-space, ThinkingDelta of reasoning-space,
ThinkingDelta of more, then a final ContentDelta of world with the
leading space removed (the source strips whitespace from the text after
the closing tag), then Done. -/
theorem c1_theorem :
    chat_stream [chars "Hello ", chars "<think>reasoning ", chars "more</think> world"]
        none =
      [StreamEvent.contentDelta (chars "Hello "),
       StreamEvent.thinkingDelta (chars "reasoning "),
       StreamEvent.thinkingDelta (chars "more"),
       StreamEvent.contentDelta (chars "world"),
       StreamEvent.done] := by decide

/-- C2 counterexample: a single fragment with two complete think spans
makes the parser emit a delta whose text contains a literal think tag,
because after a closing tag the remainder of the buffer is emitted
without being rescanned. -/
theorem c2_counterexample :
    (chat_stream [chars "a<think>b</think>c<think>d</think>e"] none).any
        eventTextContainsTag = true := by decide

/-- C2 (amended): after consuming a closing tag the parser emits the
whole remainder of the fragment as one ContentDelta without rescanning
it, so the second think span of the fragment appears literally, tags
included, inside a ContentDelta. -/
theorem c2_theorem :
    chat_stream [chars "a<think>b</think>c<think>d</think>e"] none =
      [StreamEvent.contentDelta (chars "a"),
       StreamEvent.thinkingDelta (chars "b"),
       StreamEvent.contentDelta (chars "c<think>d</think>e"),
       StreamEvent.done] := by decide

/-- C3 counterexample: the concatenation of the emitted delta texts can
drop input text outside tag markers, because the text following a
closing tag is stripped of surrounding whitespace: here the input
carries a space before the letter b and the concatenation of the deltas
does not. -/
theorem c3_counterexample :
    chat_stream [chars "<think>a</think> b"] none =
      [StreamEvent.thinkingDelta (chars "a"),
       StreamEvent.contentDelta (chars "b"),
       StreamEvent.done] ∧
    concatDeltas (chat_stream [chars "<think>a</think> b"] none) ≠ chars "a b" := by
  exact ⟨by decide, by decide⟩

/-- C3 (amended): the parser buffer is empty after every processed
fragment, so at end of stream nothing remains to flush and the stream
is the emitted events followed by Done; feeding the single fragment
open-tag-partial then end of stream yields ThinkingDelta of partial
then Done.  Text is nevertheless not always preserved verbatim, since
whitespace around the text after a closing tag is stripped. -/
theorem c3_theorem :
    (∀ frags : List (List Char),
      ((runChunks ⟨[], false⟩ frags).2).buffered_content = []) ∧
    (∀ frags : List (List Char),
      chat_stream frags none =
        (runChunks ⟨[], false⟩ frags).1 ++ [StreamEvent.done]) ∧
    chat_stream [chars "<think>partial"] none =
      [StreamEvent.thinkingDelta (chars "partial"), StreamEvent.done] := by
  refine ⟨fun frags => runChunks_buffered frags ⟨[], false⟩ rfl, ?_, by decide⟩
  intro frags
  have hb := runChunks_buffered frags ⟨[], false⟩ rfl
  simp [chat_stream, hb]

/-- C4: directive injection maps every user message to the same message
with the directive token and a newline prepended to its content, and
leaves every message of any other role exactly unchanged. -/
theorem c4_theorem (history : List Message) (enable : Bool) :
    List.Forall₂ (fun m m2 =>
      (m.role = "user" →
        m2.role = m.role ∧ m2.images = m.images ∧
        m2.content = (if enable then chars "/think\n" else chars "/no_think\n")
          ++ m.content) ∧
      (¬ m.role = "user" → m2 = m))
      history (applyDirective enable history) := by
  induction history with
  | nil => exact List.Forall₂.nil
  | cons m rest ih =>
      refine List.Forall₂.cons ⟨?_, ?_⟩ ih
      · intro h
        refine ⟨by simp [applyDirective, h], by simp [applyDirective, h], ?_⟩
        simp only [applyDirective, h, if_pos]
        cases enable <;> rfl
      · intro h
        simp [applyDirective, h]

/-- C5: when the transport raises after any sequence of fragments, the
stream consists of the events already emitted, then exactly one
appended ContentDelta carrying the bracketed error marker that contains
the failure message inside square brackets, then Done; the modelled
stream is a total function, so no exception reaches the caller. -/
theorem c5_theorem (frags : List (List Char)) (msg : List Char) :
    chat_stream frags (some msg) =
      (runChunks ⟨[], false⟩ frags).1 ++
        [StreamEvent.contentDelta (errMarker msg), StreamEvent.done] ∧
    List.IsInfix (chars "[Error: " ++ msg ++ chars "]") (errMarker msg) := by
  constructor
  · rfl
  · refine ⟨chars "\n", [], ?_⟩
    have hlit : chars "\n" ++ chars "[Error: " = chars "\n[Error: " := by decide
    simp only [errMarker, List.append_nil, ← List.append_assoc, hlit]

/-- C6: resolving the capabilities of the same model twice in a row,
with any backend behaviour and any starting cache, returns the same
result both times, and the second resolution is served from the cache
without issuing a backend metadata request. -/
theorem c6_theorem (backend : List Char → Option ShowResponse)
    (cache : CapCache) (name : List Char) :
    (get_model_capabilities backend
        (get_model_capabilities backend cache name).2.1 name).1 =
      (get_model_capabilities backend cache name).1 ∧
    (get_model_capabilities backend
        (get_model_capabilities backend cache name).2.1 name).2.2 = false := by
  cases h : cacheLookup cache name with
  | some r => simp [get_model_capabilities, h]
  | none => simp [get_model_capabilities, h, cacheLookup]

/-- C7: when the backend metadata request fails for an uncached model,
resolution still returns a result: thinking and vision are determined
by the two static keyword sets matched against the lowercased model
name, the thinking method is directive exactly when a thinking keyword
matched, and the result is cached; the modelled resolver is a total
function, so the failure is never surfaced. -/
theorem c7_theorem (cache : CapCache) (name : List Char)
    (h : cacheLookup cache name = none) :
    (get_model_capabilities (fun _ => none) cache name).1.thinking =
        THINKING_MODEL_KEYWORDS.any (fun k => strContains (lowerStr name) k) ∧
    (get_model_capabilities (fun _ => none) cache name).1.vision =
        VISION_MODEL_KEYWORDS.any (fun k => strContains (lowerStr name) k) ∧
    (get_model_capabilities (fun _ => none) cache name).1.thinking_method =
        (if THINKING_MODEL_KEYWORDS.any (fun k => strContains (lowerStr name) k)
         then some "directive" else none) ∧
    cacheLookup (get_model_capabilities (fun _ => none) cache name).2.1 name =
        some (get_model_capabilities (fun _ => none) cache name).1 := by
  simp [get_model_capabilities, h, detect_fallback, cacheLookup]

/-- C7 witness: the failing-backend resolution evaluated on the
uncached model name deepseek-r1 with an empty cache. -/
theorem c7_witness :
    cacheLookup [] (chars "deepseek-r1") = none ∧
    ((get_model_capabilities (fun _ => none) [] (chars "deepseek-r1")).1.thinking =
        THINKING_MODEL_KEYWORDS.any
          (fun k => strContains (lowerStr (chars "deepseek-r1")) k) ∧
     (get_model_capabilities (fun _ => none) [] (chars "deepseek-r1")).1.vision =
        VISION_MODEL_KEYWORDS.any
          (fun k => strContains (lowerStr (chars "deepseek-r1")) k) ∧
     (get_model_capabilities (fun _ => none) [] (chars "deepseek-r1")).1.thinking_method =
        (if THINKING_MODEL_KEYWORDS.any
              (fun k => strContains (lowerStr (chars "deepseek-r1")) k)
         then some "directive" else none) ∧
     cacheLookup (get_model_capabilities (fun _ => none) [] (chars "deepseek-r1")).2.1
          (chars "deepseek-r1") =
        some (get_model_capabilities (fun _ => none) [] (chars "deepseek-r1")).1) :=
  ⟨rfl, c7_theorem [] (chars "deepseek-r1") rfl⟩

/-- C8 counterexample: a title generation whose accumulated response is
one complete think span cleans to the empty string, and the source then
yields nothing at all instead of the fallback title built from the user
text. -/
theorem c8_counterexample :
    generate_chat_title (chars "hello") (some (chars "<think>x</think>")) = [] ∧
    generate_chat_title (chars "hello") (some (chars "<think>x</think>")) ≠
      [if 30 < (chars "hello").length
       then (chars "hello").take 30 ++ chars "..."
       else chars "hello"] := by
  exact ⟨by decide, by decide⟩

/-- C8 (amended): when title generation raises, the yielded title is
the deterministic fallback, the first 30 characters of the user text
with an ellipsis appended when the user text is longer than 30
characters; when the streamed result cleans to the empty string,
however, nothing is yielded and no fallback is produced. -/
theorem c8_theorem (user_message : List Char) :
    generate_chat_title user_message none =
      [if 30 < user_message.length
       then user_message.take 30 ++ chars "..."
       else user_message] ∧
    generate_chat_title (chars "hi") (some (chars "<think>y</think>")) = [] := by
  exact ⟨rfl, by decide⟩

/-- C9: the consumer loop with the stop flag raised after n delivered
events delivers exactly the first n parser events and nothing after
them, and the parser buffer is empty after every processed fragment, so
the end-of-stream flush at the cancellation point has nothing left to
return and no buffered text is discarded. -/
theorem c9_theorem (frags : List (List Char)) (n : Nat) :
    consumeLoop ((runChunks ⟨[], false⟩ frags).1) n =
      ((runChunks ⟨[], false⟩ frags).1).take n ∧
    ((runChunks ⟨[], false⟩ frags).2).buffered_content = [] := by
  exact ⟨consumeLoop_eq_take _ n, runChunks_buffered frags ⟨[], false⟩ rfl⟩

/-- C10: the preparation phase of chat_stream rewrites the caller
message list itself, so running it twice on the same list prepends the
directive token twice to the content of every user message while
leaving roles and non-user contents unchanged; and with images supplied
the last user message gains the images field on the first run. -/
theorem c10_theorem (enable : Bool) (imgs : List String) (msgs : List Message) :
    (chat_stream_prepare (some "directive") enable imgs
        (chat_stream_prepare (some "directive") enable imgs msgs)).map roleContent =
      msgs.map (fun m =>
        (m.role,
         if m.role = "user"
         then directiveToken enable ++ (directiveToken enable ++ m.content)
         else m.content)) ∧
    chat_stream_prepare (some "directive") true ["a.png"]
        [{ role := "user", content := chars "hi", images := [] }] =
      [{ role := "user", content := chars "/think\nhi", images := ["a.png"] }] := by
  constructor
  · rw [prepare_map_roleContent, prepare_map_roleContent, List.map_map, List.map_map]
    refine List.map_congr_left ?_
    intro m _
    by_cases h : m.role = "user" <;>
      simp [directiveRC, roleContent, Function.comp, h]
  · decide

end QuickChat
